import Mathlib

/-!
Verification of the `DashboardPanel` grid layout engine.

The panel arranges child widgets on a virtual grid.  Numeric values (pixel
sizes, coordinates) are modelled as rationals `ℚ`; placement values
(row, column, spans) are integers `ℤ` as produced by the write-time
coercions of the property descriptors.  The JavaScript `v | 0` coercion
is modelled as the full ToInt32 conversion: truncation toward zero
followed by the signed 32-bit wrap.
-/

namespace DashboardPanel

/-- Truncation toward zero of a rational: the integer-truncation step of
the ToInt32 conversion, and the clamp-then-truncate reading of the spec. -/
def jsTrunc (q : ℚ) : ℤ :=
  if 0 ≤ q then ⌊q⌋ else ⌈q⌉

/-- The JavaScript ToInt32 conversion applied by the `v | 0` coercions of
the source: truncate toward zero, wrap modulo 2^32 into [0, 2^32), and
re-center into [-2^31, 2^31). -/
def toInt32 (q : ℚ) : ℤ :=
  let i := jsTrunc q % 4294967296
  if 2147483648 ≤ i then i - 4294967296 else i

/-- Panel-level configuration, one field per panel property descriptor.
All values are post-coercion. -/
structure PanelConfig where
  aspectRatio : ℚ
  columnCount : ℤ
  minRowSize : ℚ
  minColumnSize : ℚ
  maxRowSize : ℚ
  maxColumnSize : ℚ
  rowSpacing : ℚ
  columnSpacing : ℚ
  deriving DecidableEq

/-- A widget's own size limits (`widget.sizeLimits`). -/
structure SizeLimits where
  minWidth : ℚ
  maxWidth : ℚ
  minHeight : ℚ
  maxHeight : ℚ
  deriving DecidableEq

/-- A child widget as the layout engine sees it: its four attached
placement properties (post-coercion) and its own size limits. -/
structure Item where
  row : ℤ
  column : ℤ
  rowSpan : ℤ
  columnSpan : ℤ
  limits : SizeLimits
  deriving DecidableEq

/-- Box sizing of the panel node (border and padding). -/
structure BoxSizing where
  paddingTop : ℚ
  paddingLeft : ℚ
  horizontalSum : ℚ
  verticalSum : ℚ
  deriving DecidableEq

/-- The result record of `_layoutData`. -/
structure ILayoutData where
  singleCol : Bool
  colSize : ℚ
  rowSize : ℚ
  deriving DecidableEq

/-- An assigned offset geometry rectangle. -/
structure Rect where
  x : ℚ
  y : ℚ
  w : ℚ
  h : ℚ
  deriving DecidableEq

/-- `_layoutData`: compute the layout mode and effective cell sizes for an
inner layout width. -/
def layoutData (p : PanelConfig) (innerWidth : ℚ) : ILayoutData :=
  let fixedColSpace := p.columnSpacing * ((p.columnCount : ℚ) - 1)
  let idealColSize := (innerWidth - fixedColSpace) / (p.columnCount : ℚ)
  if idealColSize < p.minColumnSize then
    { singleCol := true
      colSize := max p.minColumnSize (min innerWidth p.maxColumnSize)
      rowSize := p.minRowSize }
  else
    let colSize := max p.minColumnSize (min idealColSize p.maxColumnSize)
    let idealRowSize := colSize * p.aspectRatio
    { singleCol := false
      colSize := colSize
      rowSize := max p.minRowSize (min idealRowSize p.maxRowSize) }

/-- `clamp x lo hi` with the lower bound taking precedence over the upper,
the shape `Math.max(lo, Math.min(x, hi))` used throughout the source. -/
def clamp (x lo hi : ℚ) : ℚ :=
  max lo (min x hi)

/-- Layout-data derivation as worded by the specification, for comparison
with `layoutData`. -/
def specLayoutData (p : PanelConfig) (innerWidth : ℚ) : ILayoutData :=
  let fixedSpace := p.columnSpacing * ((p.columnCount : ℚ) - 1)
  let idealColumnSize := (innerWidth - fixedSpace) / (p.columnCount : ℚ)
  if idealColumnSize < p.minColumnSize then
    { singleCol := true
      colSize := clamp innerWidth p.minColumnSize p.maxColumnSize
      rowSize := p.minRowSize }
  else
    let columnSize := clamp idealColumnSize p.minColumnSize p.maxColumnSize
    { singleCol := false
      colSize := columnSize
      rowSize := clamp (columnSize * p.aspectRatio) p.minRowSize p.maxRowSize }

/-- A sample configuration at the spec's mode-selection boundary scenario:
columnCount 12, columnSpacing 8, minColumnSize 50. -/
def boundaryConfig : PanelConfig :=
  { aspectRatio := 1
    columnCount := 12
    minRowSize := 50
    minColumnSize := 50
    maxRowSize := 100000
    maxColumnSize := 100000
    rowSpacing := 8
    columnSpacing := 8 }

/-- The write-time coercion of `rowProperty` and `columnProperty`:
`Math.max(0, value | 0)`. -/
def coerceRowColumn (v : ℚ) : ℚ :=
  max 0 ((toInt32 v : ℤ) : ℚ)

/-- The write-time coercion of `rowSpanProperty` and `columnSpanProperty`:
`Math.max(1, value | 0)`. -/
def coerceSpan (v : ℚ) : ℚ :=
  max 1 ((toInt32 v : ℤ) : ℚ)

/-- The adjusted origin column of `_layoutChildren` in grid mode:
`Math.min(col, maxCol)` with `maxCol = columnCount - 1`. -/
def adjustedCol (columnCount col : ℤ) : ℤ :=
  min col (columnCount - 1)

/-- The adjusted column span of `_layoutChildren` in grid mode:
`Math.min(colSpan, maxCol - adjCol + 1)`. -/
def adjustedColSpan (columnCount col colSpan : ℤ) : ℤ :=
  min colSpan (columnCount - 1 - adjustedCol columnCount col + 1)

/-- The pre-limit grid-mode width:
`adjColSpan * colSize + (colSpan - 1) * colSpacing`.  The cell-count term
uses the adjusted span, the spacing term the declared span. -/
def gridRawWidth (colSize colSpacing : ℚ) (columnCount col colSpan : ℤ) : ℚ :=
  (adjustedColSpan columnCount col colSpan : ℚ) * colSize +
    ((colSpan : ℚ) - 1) * colSpacing

/-- The pre-limit grid-mode height:
`rowSpan * rowSize + (rowSpan - 1) * rowSpacing`. -/
def gridRawHeight (rowSize rowSpacing : ℚ) (rowSpan : ℤ) : ℚ :=
  (rowSpan : ℚ) * rowSize + ((rowSpan : ℚ) - 1) * rowSpacing

/-- The rectangle assigned to one widget by the grid-mode branch of
`_layoutChildren`: position from the adjusted column and declared row,
size from the raw width/height clamped against the widget's own limits. -/
def gridRect (p : PanelConfig) (ld : ILayoutData) (box : BoxSizing)
    (widget : Item) : Rect :=
  let y := (widget.row : ℚ) * (ld.rowSize + p.rowSpacing)
  let h := gridRawHeight ld.rowSize p.rowSpacing widget.rowSpan
  let adjCol := adjustedCol p.columnCount widget.column
  let x := (adjCol : ℚ) * (ld.colSize + p.columnSpacing)
  let w := gridRawWidth ld.colSize p.columnSpacing p.columnCount
    widget.column widget.columnSpan
  { x := box.paddingLeft + x
    y := box.paddingTop + y
    w := max widget.limits.minWidth (min w widget.limits.maxWidth)
    h := max widget.limits.minHeight (min h widget.limits.maxHeight) }

/-- Size limits wide enough never to constrain a computed geometry. -/
def wideLimits : SizeLimits :=
  { minWidth := 0, maxWidth := 1000000, minHeight := 0, maxHeight := 1000000 }

/-- A zero box sizing (no border, no padding). -/
def box0 : BoxSizing :=
  { paddingTop := 0, paddingLeft := 0, horizontalSum := 0, verticalSum := 0 }

/-- A resolved grid-mode layout datum with column size 100 and row size 50. -/
def gridData100 : ILayoutData :=
  { singleCol := false, colSize := 100, rowSize := 50 }

/-- An unconstrained item occupying the single cell at the origin. -/
def unitItem : Item :=
  { row := 0, column := 0, rowSpan := 1, columnSpan := 1, limits := wideLimits }

/-- An item at the origin whose own maximum width is 40. -/
def itemMaxW40 : Item :=
  { row := 0, column := 0, rowSpan := 1, columnSpan := 1
    limits := { minWidth := 0, maxWidth := 40, minHeight := 0, maxHeight := 1000000 } }

/-- An unconstrained item at the origin with declared column span 2. -/
def itemSpan2 : Item :=
  { row := 0, column := 0, rowSpan := 1, columnSpan := 2, limits := wideLimits }

/-- A one-column panel configuration whose sizes resolve to a 50 by 50
cell, used to exhibit right-edge overflow of the spacing term. -/
def oneColConfig : PanelConfig :=
  { aspectRatio := 1
    columnCount := 1
    minRowSize := 50
    minColumnSize := 50
    maxRowSize := 50
    maxColumnSize := 50
    rowSpacing := 8
    columnSpacing := 8 }

/-- The fields held by the property system: one per panel-level property
descriptor and one per attached (per-item) placement property. -/
inductive PropertyField
  | aspectRatio
  | columnCount
  | minRowSize
  | minColumnSize
  | maxRowSize
  | maxColumnSize
  | rowSpacing
  | columnSpacing
  | row
  | column
  | rowSpan
  | columnSpan
  deriving DecidableEq

/-- The write-time coercion of each property descriptor, exactly as the
`coerce` lambdas of the source: float fields clamp to their lower bound,
integer fields apply the ToInt32 conversion `v | 0` and then clamp. -/
def fieldCoerce : PropertyField → ℚ → ℚ
  | .aspectRatio, v => max 0 v
  | .columnCount, v => max 1 ((toInt32 v : ℤ) : ℚ)
  | .minRowSize, v => max 0 v
  | .minColumnSize, v => max 0 v
  | .maxRowSize, v => max 0 v
  | .maxColumnSize, v => max 0 v
  | .rowSpacing, v => max 0 ((toInt32 v : ℤ) : ℚ)
  | .columnSpacing, v => max 0 ((toInt32 v : ℤ) : ℚ)
  | .row, v => coerceRowColumn v
  | .column, v => coerceRowColumn v
  | .rowSpan, v => coerceSpan v
  | .columnSpan, v => coerceSpan v

/-- Modelled from the spec: the `PlacementStore` of the external reactive
property system, for one entity — a mapping from fields to their stored
values (`none` when never set). -/
def PlacementStore : Type :=
  PropertyField → Option ℚ

/-- Modelled from the spec: `set` applies the field's coercion rule and
stores the coerced value; a write never fails. -/
def storeSet (s : PlacementStore) (f : PropertyField) (v : ℚ) :
    PlacementStore :=
  fun g => if g = f then some (fieldCoerce f v) else s g

/-- Modelled from the spec: `get` returns the currently stored value. -/
def storeGet (s : PlacementStore) (f : PropertyField) : Option ℚ :=
  s f

/-- The ordering induced by the comparator `widgetCmp`: ascending by row,
then by column. -/
def widgetLe (a b : Item) : Prop :=
  a.row < b.row ∨ (a.row = b.row ∧ a.column ≤ b.column)

instance : DecidableRel widgetLe := fun a b => by
  unfold widgetLe
  infer_instance

instance : IsTotal Item widgetLe :=
  ⟨by intro a b; unfold widgetLe; omega⟩

instance : IsTrans Item widgetLe :=
  ⟨by intro a b c; unfold widgetLe; omega⟩

/-- The single-column loop of `_layoutChildren`: walk the sorted children
with a vertical cursor, clamp each slot against the widget's own limits,
and advance the cursor by the slot height plus the row spacing.  Returns
the assigned rectangles in visit order and the final cursor value. -/
def singleColPass (left rowSize rowSpacing colSize : ℚ) :
    List Item → ℚ → List (Item × Rect) × ℚ
  | [], y => ([], y)
  | widget :: rest, y =>
    let size := (widget.rowSpan : ℚ) * rowSize +
      ((widget.rowSpan : ℚ) - 1) * rowSpacing
    let w := max widget.limits.minWidth (min colSize widget.limits.maxWidth)
    let h := max widget.limits.minHeight (min size widget.limits.maxHeight)
    let res := singleColPass left rowSize rowSpacing colSize rest
      (y + size + rowSpacing)
    ((widget, { x := left, y := y, w := w, h := h }) :: res.1, res.2)

/-- The grid-mode `maxRow` accumulator of `_layoutChildren`:
`maxRow = max(maxRow, row + rowSpan - 1)` across all children, starting
from `0`. -/
def gridMaxRow (children : List Item) : ℤ :=
  children.foldl (fun m it => max m (it.row + it.rowSpan - 1)) 0

/-- The grid-mode loop of `_layoutChildren`: each child, in container
order, receives its `gridRect`. -/
def gridPass (p : PanelConfig) (ld : ILayoutData) (box : BoxSizing)
    (children : List Item) : List (Item × Rect) :=
  children.map (fun it => (it, gridRect p ld box it))

/-- `_layoutChildren`: bail out when there are no children; otherwise
derive the layout data for the inner width and run the single-column or
grid branch.  Returns the children in container order after the pass
(the single-column branch sorts the list in place), the assigned
rectangles in visit order, and the extent written to the sizer (`none`
when nothing is written). -/
def layoutChildren (p : PanelConfig) (box : BoxSizing)
    (children : List Item) (offsetWidth : ℚ) :
    List Item × List (Item × Rect) × Option ℚ :=
  if children.isEmpty then (children, [], none) else
  let width := offsetWidth - box.horizontalSum
  let ld := layoutData p width
  if ld.singleCol then
    let sorted := children.insertionSort widgetLe
    let res := singleColPass box.paddingLeft ld.rowSize p.rowSpacing
      ld.colSize sorted box.paddingTop
    (sorted, res.1, some res.2)
  else
    let mr := gridMaxRow children
    (children, gridPass p ld box children,
      some (((mr : ℚ) + 1) * ld.rowSize + (mr : ℚ) * p.rowSpacing +
        box.verticalSum))

/-- Placement equality: two items with the same four placement values,
their own size limits left free. -/
def placementEq (a b : Item) : Prop :=
  a.row = b.row ∧ a.column = b.column ∧
    a.rowSpan = b.rowSpan ∧ a.columnSpan = b.columnSpan

/-- The single-column positions as worded by the claim: the i-th visited
item sits at the left padding, at a vertical offset that advances by
`rowSpan * (rowSize + rowSpacing)` per item, independent of any size
limits. -/
def specSingleColPositions (left rowSize rowSpacing : ℚ) :
    List Item → ℚ → List (ℚ × ℚ)
  | [], _ => []
  | it :: rest, y =>
    (left, y) :: specSingleColPositions left rowSize rowSpacing rest
      (y + (it.rowSpan : ℚ) * (rowSize + rowSpacing))

/-- The three stacked-mode example items of the spec, declared at
(row, column) = (1,0), (0,5) and (0,1). -/
def itemA : Item :=
  { row := 1, column := 0, rowSpan := 1, columnSpan := 1, limits := wideLimits }

/-- Second example item, declared at (0,5). -/
def itemB : Item :=
  { row := 0, column := 5, rowSpan := 1, columnSpan := 1, limits := wideLimits }

/-- Third example item, declared at (0,1). -/
def itemC : Item :=
  { row := 0, column := 1, rowSpan := 1, columnSpan := 1, limits := wideLimits }

/-- The grid-extent example item of the spec: row 2, row span 3. -/
def itemR2S3 : Item :=
  { row := 2, column := 0, rowSpan := 3, columnSpan := 1, limits := wideLimits }

end DashboardPanel

namespace DashboardPanel

/-- Claim C1: the resolver enters single-column mode iff
`(innerWidth − columnSpacing × (columnCount − 1)) / columnCount <
minColumnSize`; the effective sizes in each mode are exactly the clamped
values worded by the spec (minimum taking precedence over maximum); and at
columnCount 12, columnSpacing 8, minColumnSize 50 the boundary sits
between innerWidth 687 (single-column) and 688 (grid). -/
theorem claim_C1 :
    (∀ (p : PanelConfig) (innerWidth : ℚ),
        layoutData p innerWidth = specLayoutData p innerWidth) ∧
    (∀ (p : PanelConfig) (innerWidth : ℚ),
        (layoutData p innerWidth).singleCol = true ↔
          (innerWidth - p.columnSpacing * ((p.columnCount : ℚ) - 1)) /
              (p.columnCount : ℚ) < p.minColumnSize) ∧
    (layoutData boundaryConfig 687).singleCol = true ∧
    (layoutData boundaryConfig 688).singleCol = false := by
  refine ⟨?_, ?_, by norm_num [layoutData, boundaryConfig],
    by norm_num [layoutData, boundaryConfig]⟩
  · intro p innerWidth
    rfl
  · intro p innerWidth
    by_cases h :
        (innerWidth - p.columnSpacing * ((p.columnCount : ℚ) - 1)) /
          (p.columnCount : ℚ) < p.minColumnSize
    · simp [layoutData, h]
    · simp [layoutData, h]

/-- Claim C2: in grid mode the effective column index is
`min(declaredColumn, columnCount - 1)`, the effective column span is
`min(declaredColumnSpan, columnCount - adjCol)` so that
`adjCol + adjSpan ≤ columnCount`; row and row span are used as declared;
the rectangle origin is `x = adjCol * (columnSize + columnSpacing)` plus
left padding and `y = row * (rowSize + rowSpacing)` plus top padding;
write-time coercion guarantees a column lower bound of 0; and an item
with column 10, columnSpan 5, columnCount 12 gets effective span 2. -/
theorem claim_C2 :
    (∀ cc col : ℤ, adjustedCol cc col = min col (cc - 1)) ∧
    (∀ cc col sp : ℤ,
        adjustedColSpan cc col sp = min sp (cc - adjustedCol cc col)) ∧
    (∀ cc col sp : ℤ,
        adjustedCol cc col + adjustedColSpan cc col sp ≤ cc) ∧
    (∀ (p : PanelConfig) (ld : ILayoutData) (box : BoxSizing) (it : Item),
        (gridRect p ld box it).x =
            box.paddingLeft +
              (adjustedCol p.columnCount it.column : ℚ) *
                (ld.colSize + p.columnSpacing) ∧
        (gridRect p ld box it).y =
            box.paddingTop + (it.row : ℚ) * (ld.rowSize + p.rowSpacing)) ∧
    (∀ v : ℚ, 0 ≤ coerceRowColumn v) ∧
    adjustedColSpan 12 10 5 = 2 := by
  refine ⟨fun cc col => rfl, ?_, ?_, ?_, fun v => le_max_left 0 _, by decide⟩
  · intro cc col sp
    unfold adjustedColSpan adjustedCol
    omega
  · intro cc col sp
    unfold adjustedColSpan adjustedCol
    omega
  · intro p ld box it
    exact ⟨rfl, rfl⟩

/-- Claim C3: in grid mode the pre-limit width is
`adjSpan * columnSize + (declaredColumnSpan - 1) * columnSpacing` and the
pre-limit height is `rowSpan * rowSize + (rowSpan - 1) * rowSpacing`; the
assigned rectangle clamps these against the item's own limits with the
limits winning; an item with maxWidth 40 in a grid with column size 100
renders with width 40. -/
theorem claim_C3 :
    (∀ (colSize colSpacing : ℚ) (cc col sp : ℤ),
        gridRawWidth colSize colSpacing cc col sp =
          (adjustedColSpan cc col sp : ℚ) * colSize +
            ((sp : ℚ) - 1) * colSpacing) ∧
    (∀ (rowSize rowSpacing : ℚ) (sp : ℤ),
        gridRawHeight rowSize rowSpacing sp =
          (sp : ℚ) * rowSize + ((sp : ℚ) - 1) * rowSpacing) ∧
    (∀ (p : PanelConfig) (ld : ILayoutData) (box : BoxSizing) (it : Item),
        (gridRect p ld box it).w =
            max it.limits.minWidth
              (min (gridRawWidth ld.colSize p.columnSpacing p.columnCount
                  it.column it.columnSpan) it.limits.maxWidth) ∧
        (gridRect p ld box it).h =
            max it.limits.minHeight
              (min (gridRawHeight ld.rowSize p.rowSpacing it.rowSpan)
                it.limits.maxHeight)) ∧
    (gridRect boundaryConfig gridData100 box0 itemMaxW40).w = 40 := by
  refine ⟨fun _ _ _ _ _ => rfl, fun _ _ _ => rfl,
    fun p ld box it => ⟨rfl, rfl⟩, ?_⟩
  norm_num [gridRect, gridRawWidth, gridRawHeight, adjustedColSpan,
    adjustedCol, gridData100, box0, itemMaxW40, boundaryConfig]

/-- Claim C4 counterexample: with one column, column spacing 8 and a
declared column span of 2, the pre-limit rectangle extends 8 pixels past
the right edge of the grid, because the spacing term of the width uses
the declared span even after the span has been clamped. -/
theorem claim_C4_counterexample :
    (layoutData oneColConfig 50).singleCol = false ∧
    ¬ ((gridRect oneColConfig (layoutData oneColConfig 50) box0 itemSpan2).x +
        gridRawWidth (layoutData oneColConfig 50).colSize
          oneColConfig.columnSpacing oneColConfig.columnCount
          itemSpan2.column itemSpan2.columnSpan ≤
          box0.paddingLeft +
            (oneColConfig.columnCount : ℚ) * (layoutData oneColConfig 50).colSize +
            ((oneColConfig.columnCount : ℚ) - 1) * oneColConfig.columnSpacing) := by
  constructor
  · norm_num [layoutData, oneColConfig]
  · norm_num [layoutData, oneColConfig, gridRect, gridRawWidth,
      adjustedColSpan, adjustedCol, box0, itemSpan2]

/-- Claim C4 amended: in grid mode the occupied cells never extend past
the grid, and the pre-limit rectangle satisfies
`x + w ≤ left + columnCount * columnSize + (columnCount - 1) * columnSpacing`
provided the declared column span fits the grid at the adjusted origin
(`columnSpan ≤ columnCount - adjCol`); when the declared span exceeds the
available columns the spacing term of the width uses the declared span
and the rectangle can extend past the right edge. -/
theorem claim_C4_amended (p : PanelConfig) (ld : ILayoutData)
    (box : BoxSizing) (it : Item)
    (hc : 0 ≤ ld.colSize) (hs : 0 ≤ p.columnSpacing)
    (hfit : it.columnSpan ≤ p.columnCount - adjustedCol p.columnCount it.column) :
    (gridRect p ld box it).x +
        gridRawWidth ld.colSize p.columnSpacing p.columnCount
          it.column it.columnSpan ≤
      box.paddingLeft + (p.columnCount : ℚ) * ld.colSize +
        ((p.columnCount : ℚ) - 1) * p.columnSpacing := by
  have hspan : adjustedColSpan p.columnCount it.column it.columnSpan =
      it.columnSpan := by
    unfold adjustedColSpan
    omega
  have hle : adjustedCol p.columnCount it.column + it.columnSpan ≤
      p.columnCount := by
    omega
  have hleQ : ((adjustedCol p.columnCount it.column : ℚ) + (it.columnSpan : ℚ)) ≤
      (p.columnCount : ℚ) := by
    exact_mod_cast hle
  have hcs : (0 : ℚ) ≤ ld.colSize + p.columnSpacing := by linarith
  have hmul := mul_le_mul_of_nonneg_right hleQ hcs
  simp only [gridRect, gridRawWidth, hspan]
  nlinarith [hmul]

/-- Witness for the amended claim C4 at a concrete grid placement. -/
theorem claim_C4_amended_witness :
    (gridRect boundaryConfig gridData100 box0 unitItem).x +
        gridRawWidth gridData100.colSize boundaryConfig.columnSpacing
          boundaryConfig.columnCount unitItem.column unitItem.columnSpan ≤
      box0.paddingLeft + (boundaryConfig.columnCount : ℚ) * gridData100.colSize +
        ((boundaryConfig.columnCount : ℚ) - 1) * boundaryConfig.columnSpacing :=
  claim_C4_amended boundaryConfig gridData100 box0 unitItem
    (by norm_num [gridData100]) (by norm_num [boundaryConfig])
    (by decide)

/-- Truncation toward zero is the identity on integers. -/
theorem jsTrunc_intCast (n : ℤ) : jsTrunc (n : ℚ) = n := by
  unfold jsTrunc
  split <;> simp

/-- Truncation toward zero is monotone. -/
theorem jsTrunc_mono {q r : ℚ} (h : q ≤ r) : jsTrunc q ≤ jsTrunc r := by
  unfold jsTrunc
  split <;> split
  · exact Int.floor_mono h
  · linarith [le_trans (by assumption : (0 : ℚ) ≤ q) h]
  · calc ⌈q⌉ ≤ 0 := Int.ceil_le.mpr (by push_cast; linarith)
      _ ≤ ⌊r⌋ := Int.floor_nonneg.mpr (by assumption)
  · exact Int.ceil_mono h

/-- Truncation toward zero commutes with clamping at an integer bound. -/
theorem jsTrunc_max_intCast (n : ℤ) (q : ℚ) :
    jsTrunc (max (n : ℚ) q) = max n (jsTrunc q) := by
  rcases le_total q (n : ℚ) with h | h
  · rw [max_eq_left h, jsTrunc_intCast]
    have hle : jsTrunc q ≤ n := by
      calc jsTrunc q ≤ jsTrunc (n : ℚ) := jsTrunc_mono h
        _ = n := jsTrunc_intCast n
    exact (max_eq_left hle).symm
  · rw [max_eq_right h]
    have hle : n ≤ jsTrunc q := by
      calc n = jsTrunc (n : ℚ) := (jsTrunc_intCast n).symm
        _ ≤ jsTrunc q := jsTrunc_mono h
    exact (max_eq_right hle).symm

/-- Truncating after clamping equals clamping the truncation (the order
the source applies, the clamp outside the truncation, matches the spec's
clamp-then-truncate order). -/
theorem trunc_after_clamp (n : ℤ) (v : ℚ) :
    ((jsTrunc (max (n : ℚ) v) : ℤ) : ℚ) = max (n : ℚ) ((jsTrunc v : ℤ) : ℚ) := by
  rw [jsTrunc_max_intCast]
  push_cast
  rfl

/-- The result of ToInt32 always lies in the signed 32-bit range. -/
theorem toInt32_range (q : ℚ) :
    -2147483648 ≤ toInt32 q ∧ toInt32 q < 2147483648 := by
  unfold toInt32
  dsimp only
  split <;> omega

/-- ToInt32 is plain truncation toward zero whenever the truncated value
already lies in the signed 32-bit range — no wrap occurs. -/
theorem toInt32_eq_jsTrunc {q : ℚ} (hlo : -2147483648 ≤ jsTrunc q)
    (hhi : jsTrunc q < 2147483648) : toInt32 q = jsTrunc q := by
  unfold toInt32
  dsimp only
  split <;> omega

/-- ToInt32 is the identity on integers in the signed 32-bit range. -/
theorem toInt32_intCast (n : ℤ) (hlo : -2147483648 ≤ n)
    (hhi : n < 2147483648) : toInt32 (n : ℚ) = n := by
  have h := jsTrunc_intCast n
  rw [toInt32_eq_jsTrunc (by rw [h]; exact hlo) (by rw [h]; exact hhi), h]

/-- An integer-field coercion (lower bound 0 or 1) is idempotent: the
first coercion lands in the legal range, where ToInt32 is the
identity. -/
theorem intCoerce_idem (n : ℤ) (hn0 : 0 ≤ n) (hn : n < 2147483648) (v : ℚ) :
    max (n : ℚ) ((toInt32 (max (n : ℚ) ((toInt32 v : ℤ) : ℚ)) : ℤ) : ℚ) =
      max (n : ℚ) ((toInt32 v : ℤ) : ℚ) := by
  have hr := toInt32_range v
  have hcast : max (n : ℚ) ((toInt32 v : ℤ) : ℚ) =
      ((max n (toInt32 v) : ℤ) : ℚ) := by
    push_cast
    rfl
  rw [hcast, toInt32_intCast (max n (toInt32 v)) (by omega) (by omega)]
  push_cast
  rw [← max_assoc, max_self]

/-- A float-field coercion is idempotent. -/
theorem floatCoerce_idem (v : ℚ) : max (0 : ℚ) (max 0 v) = max 0 v := by
  rw [← max_assoc, max_self]

/-- The truncation of 0.7 is 0. -/
theorem jsTrunc_sevenTenths : jsTrunc (7 / 10 : ℚ) = 0 := by
  unfold jsTrunc
  rw [if_pos (by norm_num), Int.floor_eq_zero_iff]
  constructor <;> norm_num

/-- The truncation of 2^31 is 2^31. -/
theorem jsTrunc_pow31 : jsTrunc (2147483648 : ℚ) = 2147483648 := by
  have hcast : ((2147483648 : ℤ) : ℚ) = 2147483648 := by norm_num
  rw [← hcast, jsTrunc_intCast]

/-- Claim C8 counterexample: writing 2^31 to rowSpan stores 1, because
the `v | 0` coercion wraps the value to -2^31 before the lower-bound
clamp, while the claimed clamp-then-truncate rule would saturate to
2^31 — the write does not go to the nearest legal value. -/
theorem claim_C8_counterexample :
    fieldCoerce .rowSpan (2147483648 : ℚ) = 1 ∧
    ((jsTrunc (max 1 (2147483648 : ℚ)) : ℤ) : ℚ) = 2147483648 ∧
    fieldCoerce .rowSpan (2147483648 : ℚ) ≠
      ((jsTrunc (max 1 (2147483648 : ℚ)) : ℤ) : ℚ) := by
  have h32 : toInt32 (2147483648 : ℚ) = -2147483648 := by
    unfold toInt32
    rw [jsTrunc_pow31]
    norm_num
  have hmax : max (1 : ℚ) (2147483648 : ℚ) = 2147483648 := by
    rw [max_eq_right (by norm_num)]
  have h1 : fieldCoerce .rowSpan (2147483648 : ℚ) = 1 := by
    simp only [fieldCoerce, coerceSpan, h32]
    rw [show (((-2147483648 : ℤ)) : ℚ) = -2147483648 by norm_num,
      max_eq_left (by norm_num)]
  have h2 : ((jsTrunc (max 1 (2147483648 : ℚ)) : ℤ) : ℚ) = 2147483648 := by
    rw [hmax, jsTrunc_pow31]
    norm_num
  refine ⟨h1, h2, ?_⟩
  rw [h1, h2]
  norm_num

/-- Claim C8 amended: a set followed by a get returns the field's
coercion of the written value (a write never fails); coercion is
idempotent; integer fields truncate toward zero after clamping to their
bound provided the truncated write lies in the signed 32-bit range
[-2^31, 2^31) — outside it the `v | 0` coercion wraps modulo 2^32
instead of saturating; setting aspectRatio to -3 then reading it returns
0; setting rowSpan to 0.7 then reading it returns 1. -/
theorem claim_C8_amended :
    (∀ (s : PlacementStore) (f : PropertyField) (v : ℚ),
        storeGet (storeSet s f v) f = some (fieldCoerce f v)) ∧
    (∀ (f : PropertyField) (v : ℚ),
        fieldCoerce f (fieldCoerce f v) = fieldCoerce f v) ∧
    (∀ v : ℚ, -2147483648 ≤ jsTrunc v → jsTrunc v < 2147483648 →
        (fieldCoerce .columnCount v = ((jsTrunc (max 1 v) : ℤ) : ℚ) ∧
         fieldCoerce .rowSpacing v = ((jsTrunc (max 0 v) : ℤ) : ℚ) ∧
         fieldCoerce .columnSpacing v = ((jsTrunc (max 0 v) : ℤ) : ℚ) ∧
         fieldCoerce .row v = ((jsTrunc (max 0 v) : ℤ) : ℚ) ∧
         fieldCoerce .column v = ((jsTrunc (max 0 v) : ℤ) : ℚ) ∧
         fieldCoerce .rowSpan v = ((jsTrunc (max 1 v) : ℤ) : ℚ) ∧
         fieldCoerce .columnSpan v = ((jsTrunc (max 1 v) : ℤ) : ℚ))) ∧
    fieldCoerce .aspectRatio (-3) = 0 ∧
    fieldCoerce .rowSpan (7 / 10) = 1 := by
  have hone : ((1 : ℤ) : ℚ) = 1 := by norm_num
  have hzero : ((0 : ℤ) : ℚ) = 0 := by norm_num
  refine ⟨?_, ?_, ?_, ?_, ?_⟩
  · intro s f v
    simp [storeGet, storeSet]
  · intro f v
    cases f
    case aspectRatio => exact floatCoerce_idem v
    case columnCount =>
      simpa [fieldCoerce, hone] using
        intCoerce_idem 1 (by norm_num) (by norm_num) v
    case minRowSize => exact floatCoerce_idem v
    case minColumnSize => exact floatCoerce_idem v
    case maxRowSize => exact floatCoerce_idem v
    case maxColumnSize => exact floatCoerce_idem v
    case rowSpacing =>
      simpa [fieldCoerce, hzero] using
        intCoerce_idem 0 (by norm_num) (by norm_num) v
    case columnSpacing =>
      simpa [fieldCoerce, hzero] using
        intCoerce_idem 0 (by norm_num) (by norm_num) v
    case row =>
      simpa [fieldCoerce, coerceRowColumn, hzero] using
        intCoerce_idem 0 (by norm_num) (by norm_num) v
    case column =>
      simpa [fieldCoerce, coerceRowColumn, hzero] using
        intCoerce_idem 0 (by norm_num) (by norm_num) v
    case rowSpan =>
      simpa [fieldCoerce, coerceSpan, hone] using
        intCoerce_idem 1 (by norm_num) (by norm_num) v
    case columnSpan =>
      simpa [fieldCoerce, coerceSpan, hone] using
        intCoerce_idem 1 (by norm_num) (by norm_num) v
  · intro v hlo hhi
    have ht : toInt32 v = jsTrunc v := toInt32_eq_jsTrunc hlo hhi
    refine ⟨?_, ?_, ?_, ?_, ?_, ?_, ?_⟩ <;>
      simp only [fieldCoerce, coerceRowColumn, coerceSpan, ht] <;>
      first
        | simpa [hone] using (trunc_after_clamp 1 v).symm
        | simpa [hzero] using (trunc_after_clamp 0 v).symm
  · simp [fieldCoerce]
  · have h : toInt32 (7 / 10 : ℚ) = 0 := by
      rw [toInt32_eq_jsTrunc (by rw [jsTrunc_sevenTenths]; norm_num)
          (by rw [jsTrunc_sevenTenths]; norm_num),
        jsTrunc_sevenTenths]
    simp [fieldCoerce, coerceSpan, h]

/-- Witness for the amended claim C8 at the in-range write 0.7. -/
theorem claim_C8_amended_witness :
    fieldCoerce .rowSpan (7 / 10) =
      ((jsTrunc (max 1 (7 / 10 : ℚ)) : ℤ) : ℚ) :=
  (claim_C8_amended.2.2.1 (7 / 10)
    (by rw [jsTrunc_sevenTenths]; norm_num)
    (by rw [jsTrunc_sevenTenths]; norm_num)).2.2.2.2.2.1

/-- The items visited by the single-column loop are exactly the list it
walks, in order. -/
theorem singleColPass_fst_items (left rowSize rowSpacing colSize : ℚ) :
    ∀ (l : List Item) (y : ℚ),
      (singleColPass left rowSize rowSpacing colSize l y).1.map Prod.fst = l := by
  intro l
  induction l with
  | nil => intro y; rfl
  | cons a l ih =>
    intro y
    simp only [singleColPass, List.map_cons, ih]

/-- The final cursor of the single-column loop: the start value plus every
slot height plus one row spacing per item (the trailing spacing after the
last item included). -/
theorem singleColPass_snd (left rowSize rowSpacing colSize : ℚ) :
    ∀ (l : List Item) (y : ℚ),
      (singleColPass left rowSize rowSpacing colSize l y).2 =
        y + (l.map (fun it => (it.rowSpan : ℚ) * rowSize +
            ((it.rowSpan : ℚ) - 1) * rowSpacing)).sum +
          (l.length : ℚ) * rowSpacing := by
  intro l
  induction l with
  | nil => intro y; simp [singleColPass]
  | cons a l ih =>
    intro y
    simp only [singleColPass, ih, List.map_cons, List.sum_cons,
      List.length_cons]
    push_cast
    ring

/-- The positions assigned by the single-column loop follow
`specSingleColPositions`: left padding for `x`, and a cursor that advances
by `rowSpan * (rowSize + rowSpacing)` per item, independent of limits. -/
theorem singleColPass_positions (left rowSize rowSpacing colSize : ℚ) :
    ∀ (l : List Item) (y : ℚ),
      (singleColPass left rowSize rowSpacing colSize l y).1.map
          (fun pr => (pr.2.x, pr.2.y)) =
        specSingleColPositions left rowSize rowSpacing l y := by
  intro l
  induction l with
  | nil => intro y; rfl
  | cons a l ih =>
    intro y
    simp only [singleColPass, specSingleColPositions, List.map_cons, ih]
    have harg : y + ((a.rowSpan : ℚ) * rowSize +
        ((a.rowSpan : ℚ) - 1) * rowSpacing) + rowSpacing =
        y + (a.rowSpan : ℚ) * (rowSize + rowSpacing) := by ring
    rw [harg]

/-- Sorting an already sorted child list leaves it unchanged. -/
theorem insertionSort_idem (l : List Item) :
    (l.insertionSort widgetLe).insertionSort widgetLe =
      l.insertionSort widgetLe :=
  (List.sorted_insertionSort widgetLe l).insertionSort_eq

/-- Sorting preserves emptiness of the child list. -/
theorem insertionSort_isEmpty (l : List Item) :
    (l.insertionSort widgetLe).isEmpty = l.isEmpty := by
  have h := (List.perm_insertionSort widgetLe l).length_eq
  rcases l with _ | ⟨a, l⟩
  · rfl
  · rcases hs : List.insertionSort widgetLe (a :: l) with _ | ⟨b, m⟩
    · rw [hs] at h
      simp at h
    · rfl

/-- The layout data of the boundary configuration at inner width 300:
single-column mode with column size 300 and row size 50. -/
theorem layoutData_boundary300 :
    layoutData boundaryConfig 300 =
      { singleCol := true, colSize := 300, rowSize := 50 } := by
  norm_num [layoutData, boundaryConfig]

/-- Claim C5: in single-column mode items are laid out in ascending
(row, then column) order of their declared placements, used purely as a
sort key; the items (1,0), (0,5), (0,1) are visited in the order (0,1),
(0,5), (1,0) and stacked top to bottom in that order. -/
theorem claim_C5 :
    (∀ children : List Item,
        List.Sorted widgetLe (children.insertionSort widgetLe)) ∧
    (∀ children : List Item,
        (children.insertionSort widgetLe).Perm children) ∧
    ((layoutChildren boundaryConfig box0 [itemA, itemB, itemC] 300).2.1.map
        (fun pr => (pr.1.row, pr.1.column)) = [(0, 1), (0, 5), (1, 0)]) ∧
    ((layoutChildren boundaryConfig box0 [itemA, itemB, itemC] 300).2.1.map
        (fun pr => pr.2.y) = [0, 58, 116]) := by
  refine ⟨fun l => List.sorted_insertionSort widgetLe l,
    fun l => List.perm_insertionSort widgetLe l, ?_, ?_⟩
  · norm_num [layoutChildren, layoutData, singleColPass, widgetLe,
      List.insertionSort, List.orderedInsert, boundaryConfig, box0,
      itemA, itemB, itemC, wideLimits, max_def, min_def]
  · norm_num [layoutChildren, layoutData, singleColPass, widgetLe,
      List.insertionSort, List.orderedInsert, boundaryConfig, box0,
      itemA, itemB, itemC, wideLimits, max_def, min_def]

/-- Claim C6 counterexample: a single unconstrained one-row item in
single-column mode yields a sizer extent of 58 — the final cursor value,
which includes the trailing row spacing of 8 — while the claim's formula
`top + Σ slots + (n-1) * rowSpacing` gives 50. -/
theorem claim_C6_counterexample :
    (layoutData boundaryConfig 300).singleCol = true ∧
    (layoutChildren boundaryConfig box0 [unitItem] 300).2.2 = some 58 ∧
    (layoutChildren boundaryConfig box0 [unitItem] 300).2.2 ≠
      some (box0.paddingTop +
        ((unitItem.rowSpan : ℚ) * (layoutData boundaryConfig 300).rowSize +
          ((unitItem.rowSpan : ℚ) - 1) * boundaryConfig.rowSpacing) +
        ((1 : ℚ) - 1) * boundaryConfig.rowSpacing) := by
  have hev : (layoutChildren boundaryConfig box0 [unitItem] 300).2.2 =
      some 58 := by
    norm_num [layoutChildren, layoutData, singleColPass, widgetLe,
      List.insertionSort, List.orderedInsert, boundaryConfig, box0,
      unitItem, wideLimits, max_def, min_def]
  refine ⟨by rw [layoutData_boundary300], hev, ?_⟩
  rw [hev, layoutData_boundary300]
  norm_num [box0, unitItem, boundaryConfig]

/-- Claim C6 amended: in single-column mode with n ≥ 1 items the extent
written to the sizer equals the final cursor value, which is the top
padding plus every slot height plus n times the row spacing — the
trailing spacing after the last item is included. -/
theorem claim_C6_amended (p : PanelConfig) (box : BoxSizing)
    (children : List Item) (w : ℚ)
    (hne : children ≠ [])
    (hmode : (layoutData p (w - box.horizontalSum)).singleCol = true) :
    (layoutChildren p box children w).2.2 =
      some (box.paddingTop +
        (children.map (fun it =>
          (it.rowSpan : ℚ) * (layoutData p (w - box.horizontalSum)).rowSize +
            ((it.rowSpan : ℚ) - 1) * p.rowSpacing)).sum +
        (children.length : ℚ) * p.rowSpacing) := by
  have hempty : children.isEmpty = false := by
    simpa using hne
  have hperm := List.perm_insertionSort widgetLe children
  simp only [layoutChildren, hempty, Bool.false_eq_true, if_false, hmode,
    if_true, singleColPass_snd]
  rw [List.Perm.sum_eq (hperm.map _), hperm.length_eq]

/-- Witness for the amended claim C6 at one stacked item. -/
theorem claim_C6_amended_witness :
    (layoutChildren boundaryConfig box0 [unitItem] 300).2.2 =
      some (box0.paddingTop +
        (([unitItem] : List Item).map (fun it =>
          (it.rowSpan : ℚ) *
              (layoutData boundaryConfig (300 - box0.horizontalSum)).rowSize +
            ((it.rowSpan : ℚ) - 1) * boundaryConfig.rowSpacing)).sum +
        ((([unitItem] : List Item).length : ℚ) * boundaryConfig.rowSpacing)) :=
  claim_C6_amended boundaryConfig box0 [unitItem] 300 (by simp)
    (by norm_num [layoutData, boundaryConfig, box0])

/-- Claim C7: in grid mode with at least one item the extent written to
the sizer is `(maxRow + 1) * rowSize + maxRow * rowSpacing` plus the
panel's vertical box sum, where `maxRow` is the maximum over all items of
`row + rowSpan - 1` (at least 0) with the row span taken as declared; one
item at row 2 with row span 3 and a 50/8 row grid gives extent 282. -/
theorem claim_C7 :
    (∀ (p : PanelConfig) (box : BoxSizing) (children : List Item) (w : ℚ),
        children ≠ [] →
        (layoutData p (w - box.horizontalSum)).singleCol = false →
        (layoutChildren p box children w).2.2 =
          some
            ((((children.map (fun it => it.row + it.rowSpan - 1)).foldl
                  max 0 : ℤ) + 1 : ℚ) *
                (layoutData p (w - box.horizontalSum)).rowSize +
              ((children.map (fun it => it.row + it.rowSpan - 1)).foldl
                  max 0 : ℤ) * p.rowSpacing +
              box.verticalSum)) ∧
    (layoutChildren oneColConfig box0 [itemR2S3] 50).2.2 = some 282 := by
  constructor
  · intro p box children w hne hmode
    have hempty : children.isEmpty = false := by
      simpa using hne
    have hfold : gridMaxRow children =
        (children.map (fun it => it.row + it.rowSpan - 1)).foldl max 0 := by
      rw [gridMaxRow, List.foldl_map]
    simp only [layoutChildren, hempty, Bool.false_eq_true, if_false, hmode,
      if_true, hfold]
  · norm_num [layoutChildren, layoutData, gridPass, gridMaxRow,
      oneColConfig, box0, itemR2S3, wideLimits, max_def, min_def]

/-- Witness for claim C7's universal part at one grid item. -/
theorem claim_C7_witness :
    (layoutChildren oneColConfig box0 [itemR2S3] 50).2.2 =
      some
        ((((([itemR2S3] : List Item).map
              (fun it => it.row + it.rowSpan - 1)).foldl max 0 : ℤ) + 1 : ℚ) *
            (layoutData oneColConfig (50 - box0.horizontalSum)).rowSize +
          ((([itemR2S3] : List Item).map
              (fun it => it.row + it.rowSpan - 1)).foldl max 0 : ℤ) *
            oneColConfig.rowSpacing +
          box0.verticalSum) :=
  claim_C7.1 oneColConfig box0 [itemR2S3] 50 (by simp)
    (by norm_num [layoutData, oneColConfig, box0])

/-- Claim C9: for fixed configuration, children and width, a second
layout pass over the state left by the first (the single-column branch
sorts the child list in place) assigns the same rectangles and the same
extent; and the visit order of a pass is the (row, column)-sorted order
in single-column mode and the container order in grid mode. -/
theorem claim_C9 (p : PanelConfig) (box : BoxSizing) (children : List Item)
    (w : ℚ) :
    (layoutChildren p box (layoutChildren p box children w).1 w).2 =
      (layoutChildren p box children w).2 ∧
    (layoutChildren p box children w).2.1.map Prod.fst =
      (if (layoutData p (w - box.horizontalSum)).singleCol = true
        then children.insertionSort widgetLe else children) := by
  by_cases hempty : children.isEmpty = true
  · have hnil : children = [] := by simpa using hempty
    subst hnil
    constructor
    · rfl
    · simp [layoutChildren]
  · have hne : children.isEmpty = false := by
      simpa using hempty
    by_cases hmode : (layoutData p (w - box.horizontalSum)).singleCol = true
    · constructor
      · simp only [layoutChildren, hne, Bool.false_eq_true, if_false, hmode,
          if_true, insertionSort_isEmpty, insertionSort_idem]
      · simp only [layoutChildren, hne, Bool.false_eq_true, if_false, hmode,
          if_true, singleColPass_fst_items]
    · have hm : (layoutData p (w - box.horizontalSum)).singleCol = false := by
        simpa using hmode
      constructor
      · simp only [layoutChildren, hne, Bool.false_eq_true, if_false, hm,
          if_true]
      · have hmap : ∀ m : List Item,
            (m.map (fun it =>
              (it, gridRect p (layoutData p (w - box.horizontalSum)) box it))).map
                Prod.fst = m := by
          intro m
          induction m with
          | nil => rfl
          | cons a m ih => simp only [List.map_cons, ih]
        simp only [layoutChildren, hne, Bool.false_eq_true, if_false, hm,
          if_true, gridPass]
        exact hmap children

/-- The comparator consults only the placement values. -/
theorem widgetLe_congr {a b x y : Item} (hab : placementEq a b)
    (hxy : placementEq x y) : widgetLe a x ↔ widgetLe b y := by
  unfold widgetLe
  rw [hab.1, hab.2.1, hxy.1, hxy.2.1]

/-- Ordered insertion respects placement equality pointwise. -/
theorem forall₂_orderedInsert {a b : Item} (hab : placementEq a b) :
    ∀ {m₁ m₂ : List Item}, List.Forall₂ placementEq m₁ m₂ →
      List.Forall₂ placementEq (m₁.orderedInsert widgetLe a)
        (m₂.orderedInsert widgetLe b) := by
  intro m₁ m₂ h
  induction h with
  | nil => exact List.Forall₂.cons hab List.Forall₂.nil
  | cons hxy hrest ih =>
    rename_i x y m₁ m₂
    by_cases hc : widgetLe a x
    · have hc' : widgetLe b y := (widgetLe_congr hab hxy).mp hc
      simp only [List.orderedInsert, if_pos hc, if_pos hc']
      exact List.Forall₂.cons hab (List.Forall₂.cons hxy hrest)
    · have hc' : ¬ widgetLe b y := fun h => hc ((widgetLe_congr hab hxy).mpr h)
      simp only [List.orderedInsert, if_neg hc, if_neg hc']
      exact List.Forall₂.cons hxy ih

/-- Insertion sort respects placement equality pointwise. -/
theorem forall₂_insertionSort :
    ∀ {m₁ m₂ : List Item}, List.Forall₂ placementEq m₁ m₂ →
      List.Forall₂ placementEq (m₁.insertionSort widgetLe)
        (m₂.insertionSort widgetLe) := by
  intro m₁ m₂ h
  induction h with
  | nil => exact List.Forall₂.nil
  | cons hxy hrest ih =>
    simp only [List.insertionSort]
    exact forall₂_orderedInsert hxy ih

/-- The claimed single-column positions depend only on placements. -/
theorem specPositions_congr (left rowSize rowSpacing : ℚ) :
    ∀ {m₁ m₂ : List Item}, List.Forall₂ placementEq m₁ m₂ →
      ∀ y : ℚ, specSingleColPositions left rowSize rowSpacing m₁ y =
        specSingleColPositions left rowSize rowSpacing m₂ y := by
  intro m₁ m₂ h
  induction h with
  | nil => intro y; rfl
  | cons hxy hrest ih =>
    intro y
    simp only [specSingleColPositions, hxy.2.2.1, ih]

/-- Claim C10: in single-column mode the assigned positions follow the
sorted placements alone — the i-th visited item sits at the left padding
with a vertical offset advancing by `rowSpan * (rowSize + rowSpacing)`
per item — so changing any item's size limits changes only that item's
own width and height, never any assigned x or y. -/
theorem claim_C10 :
    (∀ (p : PanelConfig) (box : BoxSizing) (children : List Item) (w : ℚ),
        (layoutData p (w - box.horizontalSum)).singleCol = true →
        (layoutChildren p box children w).2.1.map
            (fun pr => (pr.2.x, pr.2.y)) =
          specSingleColPositions box.paddingLeft
            (layoutData p (w - box.horizontalSum)).rowSize p.rowSpacing
            (children.insertionSort widgetLe) box.paddingTop) ∧
    (∀ (p : PanelConfig) (box : BoxSizing) (m₁ m₂ : List Item) (w : ℚ),
        (layoutData p (w - box.horizontalSum)).singleCol = true →
        List.Forall₂ placementEq m₁ m₂ →
        (layoutChildren p box m₁ w).2.1.map (fun pr => (pr.2.x, pr.2.y)) =
          (layoutChildren p box m₂ w).2.1.map (fun pr => (pr.2.x, pr.2.y))) := by
  have h1 : ∀ (p : PanelConfig) (box : BoxSizing) (children : List Item)
      (w : ℚ),
      (layoutData p (w - box.horizontalSum)).singleCol = true →
      (layoutChildren p box children w).2.1.map
          (fun pr => (pr.2.x, pr.2.y)) =
        specSingleColPositions box.paddingLeft
          (layoutData p (w - box.horizontalSum)).rowSize p.rowSpacing
          (children.insertionSort widgetLe) box.paddingTop := by
    intro p box children w hmode
    by_cases hempty : children.isEmpty = true
    · have hnil : children = [] := by simpa using hempty
      subst hnil
      rfl
    · have hne : children.isEmpty = false := by simpa using hempty
      simp only [layoutChildren, hne, Bool.false_eq_true, if_false, hmode,
        if_true, singleColPass_positions]
  refine ⟨h1, ?_⟩
  intro p box m₁ m₂ w hmode hf
  rw [h1 p box m₁ w hmode, h1 p box m₂ w hmode]
  exact specPositions_congr box.paddingLeft _ p.rowSpacing
    (forall₂_insertionSort hf) box.paddingTop

/-- Witness for claim C10's universal parts at one stacked item. -/
theorem claim_C10_witness :
    (layoutChildren boundaryConfig box0 [unitItem] 300).2.1.map
        (fun pr => (pr.2.x, pr.2.y)) =
      specSingleColPositions box0.paddingLeft
        (layoutData boundaryConfig (300 - box0.horizontalSum)).rowSize
        boundaryConfig.rowSpacing
        (([unitItem] : List Item).insertionSort widgetLe) box0.paddingTop :=
  claim_C10.1 boundaryConfig box0 [unitItem] 300
    (by norm_num [layoutData, boundaryConfig, box0])

end DashboardPanel
